import Mathlib

/-!
# ddd: message-id dump of an exported chat archive

A shallow embedding of `src/main.go`.

* Go strings are Lean `String`s; `+` is `++`.
* The package-level variables `channelJson`, `messagesJson`, `flagValues` and
  `channelsList` are the fields of `Globals`, passed explicitly.
* The dump file `*os.File` is the text written to it so far (a `String`);
  `WriteString` appends, and is taken to succeed.
* `log.Fatalf` ends the process: the functions that can reach it return a `Run`
  whose `fatal` case keeps the dump text written up to that point.
* `int` and `int64` values are `Int`/`Nat`: the only arithmetic is `i+1` on a
  slice index, which cannot overflow.
-/

namespace DDD

/-! ## Constants (main.go 15-22) -/

def MESSAGES_JSON_PATH : String := "/messages.json"
def CHANNEL_JSON_PATH : String := "/channel.json"
def MESSAGES_PATH : String := "messages"
def DUMP_FILE : String := "messages.txt"
def FORMATINT_BASE : Nat := 10

/-! ## Data model (main.go 24-48) -/

/-- One element of `MessagesJSON`. -/
structure Message where
  ID : Int
  Timestamp : String
  deriving DecidableEq, Repr

abbrev MessagesJSON := List Message

structure ChannelJSON where
  ID : String
  deriving DecidableEq, Repr

structure FlagValues where
  Path : String
  Exclude : Bool
  Include : Bool
  AllMessages : Bool
  ByYear : String
  ByChannels : String
  deriving DecidableEq, Repr

/-- The package-level variables. `channelsList` is the key set of the Go map
`map[string]struct{}`, kept as the list of inserted keys. -/
structure Globals where
  channelJson : ChannelJSON
  messagesJson : MessagesJSON
  flagValues : FlagValues
  channelsList : List String
  deriving DecidableEq, Repr

/-! ## Library functions used by the program -/

/-- The function `strconv.FormatInt`: digits of the magnitude in the given base,
with a leading `-` for a negative value. -/
def FormatInt (i : Int) (base : Nat) : String :=
  if i < 0 then "-" ++ String.mk (Nat.toDigits base i.natAbs)
  else String.mk (Nat.toDigits base i.natAbs)

/-! ## Dump writer (main.go 109-118, 167-172) -/

/-- The function `dumpToFile`: append `content` to the dump. -/
def dumpToFile (dumpFile : String) (content : String) : String :=
  dumpFile ++ content

/-- The `for i, m := range messagesJson` loop of `dumpAllMessages`, from index `i`
over the remaining elements. -/
def dumpAllMessagesLoop (messagesJsonLength : Int) : Nat → List Message → String → String
  | _, [], dumpFile => dumpFile
  | i, m :: rest, dumpFile =>
    if (i : Int) + 1 = messagesJsonLength then
      dumpAllMessagesLoop messagesJsonLength (i + 1) rest
        (dumpToFile dumpFile (FormatInt m.ID FORMATINT_BASE ++ "\n\n"))
    else
      dumpAllMessagesLoop messagesJsonLength (i + 1) rest
        (dumpToFile dumpFile (FormatInt m.ID FORMATINT_BASE ++ ", "))

def dumpAllMessages (g : Globals) (messagesJsonLength : Int) (dumpFile : String) : String :=
  dumpAllMessagesLoop messagesJsonLength 0 g.messagesJson
    (dumpToFile dumpFile (g.channelJson.ID ++ ":\n"))

/-! ## Outcome of a computation that may end the process -/

/-- Result of a piece of the program: `ok` when it returns, `fatal` when it
reaches `log.Fatalf` (the process exits; `dumpFile` is the text written so far),
`panic` when a run-time panic (index out of range) ends the process. -/
inductive Run (α : Type) where
  | ok (a : α)
  | fatal (msg : String) (dumpFile : String)
  | panic (dumpFile : String)
  deriving DecidableEq, Repr

/-! ## `strings.SplitN` and `strings.Split`

The Go library functions, on the characters of the string. A position is a
character position; the separators used by the program are ASCII, so cutting at
a character position and at the corresponding byte position give the same
pieces. -/

/-- The function `strings.Index`: position of the first occurrence of `sep` in `s`,
`none` for Go's `-1`. -/
def Index (s sep : List Char) : Option Nat :=
  if sep.isPrefixOf s then some 0
  else
    match s with
    | [] => none
    | _ :: t => (Index t sep).map (· + 1)

/-- Loop of `strings.Count` for a non-empty `sep`; `fuel` bounds the iterations. -/
def countLoop (sep : List Char) : Nat → List Char → Nat
  | 0, _ => 0
  | fuel + 1, s =>
    match Index s sep with
    | none => 0
    | some i => 1 + countLoop sep fuel (s.drop (i + sep.length))

/-- The function `strings.Count`: number of non-overlapping occurrences of `sep`. -/
def Count (s sep : List Char) : Nat :=
  if sep = [] then s.length + 1 else countLoop sep (s.length + 1) s

/-- The function `explode` of package `strings`: up to `n` pieces, one character
each, the last one holding the rest. -/
def explode (s : List Char) (n : Int) : List String :=
  let l := s.length
  let n : Nat := if n < 0 ∨ n > (l : Int) then l else n.toNat
  if n = 0 then []
  else (s.take (n - 1)).map (fun c => String.mk [c]) ++ [String.mk (s.drop (n - 1))]

/-- The `for i < n` loop of `genSplit`; `k` is `n - i`, the cuts still allowed. -/
def genSplitLoop (sep : List Char) (sepSave : Nat) : Nat → List Char → List (List Char)
  | 0, s => [s]
  | k + 1, s =>
    match Index s sep with
    | none => [s]
    | some m => s.take (m + sepSave) :: genSplitLoop sep sepSave k (s.drop (m + sep.length))

/-- The function `genSplit` of package `strings`. -/
def genSplit (s sep : String) (sepSave : Nat) (n : Int) : List String :=
  if n = 0 then []
  else if sep = "" then explode s.data n
  else
    let n : Int := if n < 0 then (Count s.data sep.data : Int) + 1 else n
    let n : Int := if n > (s.utf8ByteSize : Int) + 1 then (s.utf8ByteSize : Int) + 1 else n
    (genSplitLoop sep.data sepSave (n - 1).toNat s.data).map String.mk

def SplitN (s sep : String) (n : Int) : List String := genSplit s sep 0 n

def Split (s sep : String) : List String := genSplit s sep 0 (-1)

/-! ## Selection by year (main.go 120-146) -/

/-- The `for _, m := range messagesJson` loop of `dumpByYear`, threading
`channelIDDumped` and the dump. The index expression `timestampSplit[0]` panics
on an empty slice. -/
def dumpByYearLoop (g : Globals) : List Message → Bool → String → Run (Bool × String)
  | [], channelIDDumped, dumpFile => .ok (channelIDDumped, dumpFile)
  | m :: rest, channelIDDumped, dumpFile =>
    match SplitN m.Timestamp "-" 2 with
    | [] => .panic dumpFile
    | timestampYear :: _ =>
      if timestampYear ≠ g.flagValues.ByYear then
        dumpByYearLoop g rest channelIDDumped dumpFile
      else
        let dumpFile :=
          if !channelIDDumped then dumpToFile dumpFile (g.channelJson.ID ++ ":\n")
          else dumpFile
        dumpByYearLoop g rest true
          (dumpToFile dumpFile (FormatInt m.ID FORMATINT_BASE ++ ", "))

def dumpByYear (g : Globals) (dumpFile : String) : Run String :=
  match dumpByYearLoop g g.messagesJson false dumpFile with
  | .ok (channelIDDumped, dumpFile) =>
    if channelIDDumped then .ok (dumpToFile dumpFile "\n\n") else .ok dumpFile
  | .fatal msg d => .fatal msg d
  | .panic d => .panic d

/-! ## Selection by channel set (main.go 148-165) -/

/-- The `for i, m := range messagesJson` loop of `dumpByChannels`. -/
def dumpByChannelsLoop (messagesJsonLength : Int) : Nat → List Message → String → String
  | _, [], dumpFile => dumpFile
  | i, m :: rest, dumpFile =>
    if (i : Int) + 1 = messagesJsonLength then
      dumpByChannelsLoop messagesJsonLength (i + 1) rest
        (dumpToFile dumpFile (FormatInt m.ID FORMATINT_BASE ++ "\n\n"))
    else
      dumpByChannelsLoop messagesJsonLength (i + 1) rest
        (dumpToFile dumpFile (FormatInt m.ID FORMATINT_BASE ++ ", "))

def dumpByChannels (g : Globals) (messagesJsonLength : Int) (dumpFile : String) : String :=
  let channelIDExists : Bool := decide (g.channelJson.ID ∈ g.channelsList)
  if g.flagValues.Exclude && channelIDExists then dumpFile
  else if g.flagValues.Include && !channelIDExists then dumpFile
  else
    dumpByChannelsLoop messagesJsonLength 0 g.messagesJson
      (dumpToFile dumpFile (g.channelJson.ID ++ ":\n"))

/-! ## Channel set (main.go 182-189) -/

/-- The map assignment `channelsList[e] = struct{}{}` on the key list. -/
def mapInsert (cl : List String) (e : String) : List String :=
  if e ∈ cl then cl else cl ++ [e]

def fillChannelsList (g : Globals) : Globals :=
  if g.flagValues.ByChannels ≠ "" then
    let excludedChannels := Split g.flagValues.ByChannels ","
    { g with channelsList := excludedChannels.foldl mapInsert g.channelsList }
  else g

/-! ## The outside world

What the program reads from its environment. The JSON decoder and the path
joining of `path/filepath` are library code and are taken as given: every
result below holds for each choice of them. -/

/-- An entry of the file tree as `filepath.Walk` sees it. The children of a
directory are listed with their names, in the order `readDirNames` returns them. -/
inductive Entry where
  | file : Entry
  | dir : List (String × Entry) → Entry
  | dirUnreadable : String → Entry
  | noStat : String → Entry

/-- The environment of one run.
* `ReadFile path` is `os.ReadFile`.
* `UnmarshalChannel data cur` is `json.Unmarshal(data, &channelJson)` when
  `channelJson` holds `cur`: the new value, or the decoding error. Likewise
  `UnmarshalMessages` for `messagesJson`.
* `root` is the tree found at `flagValues.Path` (`noStat` when `os.Lstat` fails).
* `Join` is `filepath.Join`.
* `Create` is the outcome of `os.Create(DUMP_FILE)`. -/
structure World where
  ReadFile : String → Except String String
  UnmarshalChannel : String → ChannelJSON → Except String ChannelJSON
  UnmarshalMessages : String → MessagesJSON → Except String MessagesJSON
  root : Entry
  Join : String → String → String
  Create : Except String Unit

/-- The package-level variables together with the text of the dump file. -/
structure State where
  g : Globals
  dumpFile : String
  deriving DecidableEq, Repr

/-! ## Record loader and policy dispatch (main.go 78-107) -/

def readDirs (w : World) (path : String) (st : State) : Run State :=
  match w.ReadFile (path ++ CHANNEL_JSON_PATH) with
  | .error err =>
    .fatal ("error reading channel file. ERROR: " ++ err ++ "\n") st.dumpFile
  | .ok cFile =>
    match w.UnmarshalChannel cFile st.g.channelJson with
    | .error err =>
      .fatal ("error unmarshalling channel json file. ERROR: " ++ err ++ "\n") st.dumpFile
    | .ok channelJson =>
      match w.ReadFile (path ++ MESSAGES_JSON_PATH) with
      | .error err =>
        .fatal ("error reading messages file. ERROR: " ++ err ++ "\n") st.dumpFile
      | .ok mFile =>
        match w.UnmarshalMessages mFile st.g.messagesJson with
        | .error err =>
          .fatal ("error unmarshalling messages json file. ERROR: " ++ err ++ "\n")
            st.dumpFile
        | .ok messagesJson =>
          let g : Globals := { st.g with channelJson := channelJson, messagesJson := messagesJson }
          let messagesJsonLength : Int := (messagesJson.length : Int)
          if messagesJsonLength = 0 then .ok { g := g, dumpFile := st.dumpFile }
          else if g.flagValues.ByYear ≠ "" then
            match dumpByYear g st.dumpFile with
            | .ok d => .ok { g := g, dumpFile := d }
            | .fatal msg d => .fatal msg d
            | .panic d => .panic d
          else if g.flagValues.ByChannels ≠ "" then
            .ok { g := g, dumpFile := dumpByChannels g messagesJsonLength st.dumpFile }
          else
            .ok { g := g, dumpFile := dumpAllMessages g messagesJsonLength st.dumpFile }

/-! ## Tree walker (main.go 60-76) -/

/-- What the walk function reads of an `fs.FileInfo`. -/
structure FileInfo where
  Name : String
  IsDir : Bool
  deriving DecidableEq, Repr

/-- The function `basename` of package `os`, which gives `Name()` of the result of
`os.Lstat`: trailing slashes removed (keeping a lone one), then the leading
directory name. -/
def basename (name : String) : String :=
  let rec strip : List Char → List Char
    | c :: d :: t => if c = '/' then strip (d :: t) else c :: d :: t
    | r => r
  match strip name.data.reverse with
  | [] => ""
  | c :: rest => String.mk (c :: rest.takeWhile (· ≠ '/')).reverse

/-- The function literal passed to `filepath.Walk` in `pathWalk`. The result
carries the returned `error` (`none` for `nil`). `info` is `none` only when
`err` is set. -/
def walkFn (w : World) (path : String) (info : Option FileInfo) (err : Option String)
    (st : State) : Run (Option String × State) :=
  match err with
  | some e => .ok (some e, st)
  | none =>
    match info with
    | none => .panic st.dumpFile
    | some info =>
      if info.Name ≠ st.g.flagValues.Path && info.IsDir then
        match readDirs w path st with
        | .ok st => .ok (none, st)
        | .fatal msg d => .fatal msg d
        | .panic d => .panic d
      else .ok (none, st)

mutual
/-- The function `walk` of `path/filepath` applied to `walkFn`, with the `lstat`
of the entry folded in; `name` is the entry's `Name()`. An error returned by the
walk function is never `SkipDir`, so it always ends the walk. -/
def walk (w : World) (path name : String) : Entry → State → Run (Option String × State)
  | .file, st => walkFn w path (some ⟨name, false⟩) none st
  | .noStat e, st => walkFn w path none (some e) st
  | .dirUnreadable e, st => walkFn w path (some ⟨name, true⟩) (some e) st
  | .dir names, st =>
    match walkFn w path (some ⟨name, true⟩) none st with
    | .ok (none, st) => walkNames w path names st
    | r => r
/-- The `for _, name := range names` loop of `walk`. -/
def walkNames (w : World) (path : String) :
    List (String × Entry) → State → Run (Option String × State)
  | [], st => .ok (none, st)
  | (name, e) :: rest, st =>
    match walk w (w.Join path name) name e st with
    | .ok (none, st) => walkNames w path rest st
    | r => r
end

def pathWalk (w : World) (st : State) : Run (Option String × State) :=
  walk w st.g.flagValues.Path (basename st.g.flagValues.Path) w.root st

/-! ## Program entry (main.go 191-205) -/

/-- The function `main`, from the flag values `parseFlags` has stored. The dump
file is created empty. -/
def main (w : World) (flags : FlagValues) : Run State :=
  let g : Globals := fillChannelsList
    { channelJson := ⟨""⟩, messagesJson := [], flagValues := flags, channelsList := [] }
  match w.Create with
  | .error err => .fatal ("error creating dump file. ERROR: " ++ err ++ "\n") ""
  | .ok _ =>
    match pathWalk w { g := g, dumpFile := "" } with
    | .ok (none, st) => .ok st
    | .ok (some err, st) => .fatal ("error walking path. ERROR: " ++ err ++ "\n") st.dumpFile
    | .fatal msg d => .fatal msg d
    | .panic d => .panic d

/-! ## Specification-side vocabulary -/

/-- Year segment of a timestamp in the words of the specification: the part
before the first `-`, the whole timestamp when there is none. -/
def yearSegment (timestamp : String) : String :=
  String.mk (timestamp.data.takeWhile (· ≠ '-'))

/-- Messages selected by year in the words of the specification: those whose
year segment equals the configured year, in source order. -/
def selectByYear (year : String) (ms : List Message) : List Message :=
  ms.filter (fun m => yearSegment m.Timestamp = year)

/-- Text that writing the header, each id of `ids` followed by `", "`, and a
closing `"\n\n"` produces; nothing for an empty `ids`. -/
def yearBlock (c : String) (ids : List Int) : String :=
  if ids = [] then ""
  else c ++ ":\n" ++ String.join (ids.map (fun i => toString i ++ ", ")) ++ "\n\n"

/-- The channel is not dropped by the membership test of `dumpByChannels`. -/
def notSuppressed (g : Globals) : Prop :=
  ¬ (g.flagValues.Exclude = true ∧ g.channelJson.ID ∈ g.channelsList) ∧
  ¬ (g.flagValues.Include = true ∧ g.channelJson.ID ∉ g.channelsList)

instance (g : Globals) : Decidable (notSuppressed g) := by
  unfold notSuppressed; infer_instance

/-- The package-level variables once a directory's records are loaded. -/
def loaded (g : Globals) (channelJson : ChannelJSON) (messagesJson : MessagesJSON) : Globals :=
  { g with channelJson := channelJson, messagesJson := messagesJson }

/-! ## Concrete inputs -/

def flagsAll : FlagValues :=
  { Path := "messages", Exclude := false, Include := false, AllMessages := true,
    ByYear := "", ByChannels := "" }

def flagsYear2020 : FlagValues := { flagsAll with ByYear := "2020" }

/-- Channel `c1` with the ids 1, 2, 3. -/
def globalsC1 : Globals :=
  { channelJson := ⟨"c1"⟩, messagesJson := [⟨1, ""⟩, ⟨2, ""⟩, ⟨3, ""⟩],
    flagValues := flagsAll, channelsList := [] }

def messagesA : MessagesJSON := [⟨10, "2020-01-01"⟩, ⟨11, "2021-05-01"⟩]

def messagesB : MessagesJSON := [⟨20, "2020-06-01"⟩]

/-- Channel `A` of the scenario, year 2020 configured. -/
def globalsA : Globals :=
  { channelJson := ⟨"A"⟩, messagesJson := messagesA, flagValues := flagsYear2020,
    channelsList := [] }

/-- A channel directory holding its two files. -/
def channelDir : Entry := .dir [("channel.json", .file), ("messages.json", .file)]

/-- The records of one directory of a concrete world; `none` stands for a file
whose content does not decode. -/
structure DirFiles where
  path : String
  channel : Option ChannelJSON
  messages : Option MessagesJSON

/-- A concrete world: the tree `root`, and for each listed directory its two
files. The content of a file is named by its path, and the decoders map that
name to the listed records (whatever the variable held before). -/
def tableWorld (root : Entry) (dirs : List DirFiles) : World where
  ReadFile := fun p =>
    if dirs.any (fun d => p = d.path ++ CHANNEL_JSON_PATH || p = d.path ++ MESSAGES_JSON_PATH)
    then .ok p else .error ("open " ++ p ++ ": no such file or directory")
  UnmarshalChannel := fun data _ =>
    match dirs.find? (fun d => data = d.path ++ CHANNEL_JSON_PATH) with
    | some ⟨_, some c, _⟩ => .ok c
    | _ => .error "invalid character"
  UnmarshalMessages := fun data _ =>
    match dirs.find? (fun d => data = d.path ++ MESSAGES_JSON_PATH) with
    | some ⟨_, _, some ms⟩ => .ok ms
    | _ => .error "invalid character"
  root := root
  Join := fun path name => path ++ "/" ++ name
  Create := .ok ()

/-- The scenario of the specification: `messages/chanA` and `messages/chanB`. -/
def scenarioWorld : World :=
  tableWorld (.dir [("chanA", channelDir), ("chanB", channelDir)])
    [⟨"messages/chanA", some ⟨"A"⟩, some messagesA⟩,
     ⟨"messages/chanB", some ⟨"B"⟩, some messagesB⟩]

/-- A directory `messages/quiet` whose message list is empty. -/
def quietWorld : World :=
  tableWorld (.dir [("quiet", channelDir)]) [⟨"messages/quiet", some ⟨"Q"⟩, some []⟩]

/-- The tree `data/messages/chanA`, walked from the root path `data/messages`. -/
def nestedRootWorld : World :=
  tableWorld (.dir [("chanA", channelDir)])
    [⟨"data/messages/chanA", some ⟨"A"⟩, some [⟨1, "2020-01-01"⟩]⟩]

def flagsNestedRoot : FlagValues := { flagsAll with Path := "data/messages" }

/-- The tree `messages/chanA` and `messages/messages`, two channel directories. -/
def sameNameWorld : World :=
  tableWorld (.dir [("chanA", channelDir), ("messages", channelDir)])
    [⟨"messages/chanA", some ⟨"A"⟩, some [⟨1, "2020-01-01"⟩]⟩,
     ⟨"messages/messages", some ⟨"N"⟩, some [⟨5, "2020-01-01"⟩]⟩]

/-- One channel `X` whose two messages are both of 2021. -/
def yearWorld : World :=
  tableWorld (.dir [("chanX", channelDir)])
    [⟨"messages/chanX", some ⟨"X"⟩, some [⟨7, "2021-01-01"⟩, ⟨8, "2021-02-01"⟩]⟩]

def flagsYear2021 : FlagValues := { flagsAll with ByYear := "2021" }

/-- Three channel directories; the message list of the second does not decode. -/
def brokenWorld : World :=
  tableWorld (.dir [("chanA", channelDir), ("chanB", channelDir), ("chanC", channelDir)])
    [⟨"messages/chanA", some ⟨"A"⟩, some messagesA⟩,
     ⟨"messages/chanB", some ⟨"B"⟩, none⟩,
     ⟨"messages/chanC", some ⟨"C"⟩, some messagesB⟩]

/-! ## The sequence of visited directories -/

mutual
/-- The paths on which the walk invokes `readDirs`, in order, as long as every
invocation returns, and the error that ends the traversal (if any). `flagPath`
is `flagValues.Path`. -/
def visited (flagPath : String) (join : String → String → String) (path name : String) :
    Entry → List String × Option String
  | .file => ([], none)
  | .noStat e => ([], some e)
  | .dirUnreadable e => ([], some e)
  | .dir names =>
    ((if name ≠ flagPath then [path] else []) ++ (visitedNames flagPath join path names).1,
      (visitedNames flagPath join path names).2)
/-- The part of `visited` for the children of a directory. -/
def visitedNames (flagPath : String) (join : String → String → String) (path : String) :
    List (String × Entry) → List String × Option String
  | [] => ([], none)
  | (name, e) :: rest =>
    match (visited flagPath join (join path name) name e).2 with
    | none =>
      ((visited flagPath join (join path name) name e).1 ++
          (visitedNames flagPath join path rest).1,
        (visitedNames flagPath join path rest).2)
    | some err => ((visited flagPath join (join path name) name e).1, some err)
end

/-- The function `readDirs` on a sequence of directories, one after the other; the
first one that does not return ends the run. -/
def readDirsSeq (w : World) : List String → State → Run State
  | [], st => .ok st
  | p :: ps, st =>
    match readDirs w p st with
    | .ok st => readDirsSeq w ps st
    | .fatal msg d => .fatal msg d
    | .panic d => .panic d

/-- Attach the error returned by the traversal to a run over the directories. -/
def withError (r : Run State) (err : Option String) : Run (Option String × State) :=
  match r with
  | .ok st => .ok (err, st)
  | .fatal msg d => .fatal msg d
  | .panic d => .panic d

/-- The channel-metadata or the message-list resource of `path` is unreadable or
fails to decode, the package-level variables being as in `st`. -/
def loadFails (w : World) (path : String) (st : State) : Prop :=
  (∃ e, w.ReadFile (path ++ CHANNEL_JSON_PATH) = .error e) ∨
  (∃ cFile e, w.ReadFile (path ++ CHANNEL_JSON_PATH) = .ok cFile ∧
    w.UnmarshalChannel cFile st.g.channelJson = .error e) ∨
  (∃ e, w.ReadFile (path ++ MESSAGES_JSON_PATH) = .error e) ∨
  (∃ mFile e, w.ReadFile (path ++ MESSAGES_JSON_PATH) = .ok mFile ∧
    w.UnmarshalMessages mFile st.g.messagesJson = .error e)

/-- The four diagnostics of the record loader, for the error text `e`. -/
def loaderDiagnostics (e : String) : List String :=
  ["error reading channel file. ERROR: " ++ e ++ "\n",
   "error unmarshalling channel json file. ERROR: " ++ e ++ "\n",
   "error reading messages file. ERROR: " ++ e ++ "\n",
   "error unmarshalling messages json file. ERROR: " ++ e ++ "\n"]

/-- Year and channel list both set, with Exclude. -/
def flagsYearAndChannels : FlagValues :=
  { flagsAll with ByYear := "2020", ByChannels := "A", Exclude := true }

/-- Channel `c` holding the single id 1, in channel-set mode with the set `{"A"}`. -/
def globalsChannels (excl incl : Bool) (c : String) : Globals :=
  { channelJson := ⟨c⟩, messagesJson := [⟨1, "2020-01-01"⟩],
    flagValues := { flagsAll with ByChannels := "A", Exclude := excl, Include := incl },
    channelsList := ["A"] }

/-- The state in which `main` starts the walk. -/
def initialState (flags : FlagValues) : State :=
  { g := fillChannelsList
      { channelJson := ⟨""⟩, messagesJson := [], flagValues := flags, channelsList := [] },
    dumpFile := "" }

/-! ## Selection mode, final dump, decoded documents -/

/-- The three selection policies. -/
inductive Mode where
  | byYear
  | byChannels
  | all
  deriving DecidableEq, Repr

/-- The policy the `if` chain of `readDirs` (main.go 100-106) picks. -/
def selectionMode (flags : FlagValues) : Mode :=
  if flags.ByYear ≠ "" then .byYear
  else if flags.ByChannels ≠ "" then .byChannels
  else .all

/-- The text of the dump file when the run is over, however it ended. -/
def finalDump : Run State → String
  | .ok st => st.dumpFile
  | .fatal _ d => d
  | .panic d => d

/-- The state with `flagValues.AllMessages` set to `b`. -/
def withAllMessages (b : Bool) (st : State) : State :=
  { st with g := { st.g with flagValues := { st.g.flagValues with AllMessages := b } } }

/-- The outcome with `flagValues.AllMessages` set to `b` in the returned state. -/
def Run.withAllMessages (b : Bool) : Run State → Run State
  | .ok st => .ok (DDD.withAllMessages b st)
  | .fatal msg d => .fatal msg d
  | .panic d => .panic d

/-- Segments of a channel list in the words of the specification: the pieces
between the commas, untrimmed. -/
def segments (byChannels : String) : List String :=
  (byChannels.data.splitOn ',').map String.mk

/-- The function `json.Unmarshal(data, &channelJson)` for a document that is a JSON
object, where `id` is the value of the key `"id"` when the object has it: a
key that is present sets its field, a field whose key is absent keeps the
value the variable held. -/
def unmarshalChannelObject (id : Option String) (cur : ChannelJSON) : ChannelJSON :=
  { ID := id.getD cur.ID }

/-- The records of one directory whose `channel.json` is a JSON object, with or
without the key `"id"`, and whose message records carry both keys. -/
structure DirDocs where
  path : String
  channelId : Option String
  messages : MessagesJSON

/-- A concrete world decoding `channel.json` as `json.Unmarshal` does into the
package-level variable. The message records carry every key, so the decoded
list is the listed one. -/
def docWorld (root : Entry) (dirs : List DirDocs) : World where
  ReadFile := fun p =>
    if dirs.any (fun d => p = d.path ++ CHANNEL_JSON_PATH || p = d.path ++ MESSAGES_JSON_PATH)
    then .ok p else .error ("open " ++ p ++ ": no such file or directory")
  UnmarshalChannel := fun data cur =>
    match dirs.find? (fun d => data = d.path ++ CHANNEL_JSON_PATH) with
    | some d => .ok (unmarshalChannelObject d.channelId cur)
    | none => .error "invalid character"
  UnmarshalMessages := fun data _ =>
    match dirs.find? (fun d => data = d.path ++ MESSAGES_JSON_PATH) with
    | some d => .ok d.messages
    | none => .error "invalid character"
  root := root
  Join := fun path name => path ++ "/" ++ name
  Create := .ok ()

/-- Directory `messages/chanA` with `channel.json` holding `id` "A", then directory
`messages/chanB` whose `channel.json` is an object without `id`. -/
def omittedIdWorld : World :=
  docWorld (.dir [("chanA", channelDir), ("chanB", channelDir)])
    [⟨"messages/chanA", some "A", [⟨1, "2020-01-01"⟩]⟩,
     ⟨"messages/chanB", none, [⟨5, "2020-02-01"⟩]⟩]

/-- Channel list `A` with Exclude and Include both set. -/
def flagsBothSwitches : FlagValues :=
  { flagsAll with ByChannels := "A", Exclude := true, Include := true }

/-- No year, no channel list, and `AllMessages` off. -/
def flagsNotAll : FlagValues := { flagsAll with AllMessages := false }

/-! ## Lemmas on strings -/

theorem intercalate_go_acc (sep : String) (l : List String) (acc : String) :
    String.intercalate.go acc sep l = acc ++ String.intercalate.go "" sep l := by
  induction l generalizing acc with
  | nil => simp [String.intercalate.go]
  | cons a as ih =>
    simp only [String.intercalate.go]
    rw [ih (acc ++ sep ++ a), ih ("" ++ sep ++ a)]
    simp [String.append_assoc]

theorem intercalate_cons_cons (sep a b : String) (l : List String) :
    String.intercalate sep (a :: b :: l) = a ++ sep ++ String.intercalate sep (b :: l) := by
  simp only [String.intercalate, String.intercalate.go]
  rw [intercalate_go_acc sep l (a ++ sep ++ b), intercalate_go_acc sep l b]
  simp [String.append_assoc]

theorem utf8ByteSize_eq_zero_iff (s : String) : s.utf8ByteSize = 0 ↔ s = "" := by
  constructor
  · intro h
    cases s with
    | mk l =>
      cases l with
      | nil => rfl
      | cons c t =>
        have := c.utf8Size_pos
        simp [String.utf8ByteSize, String.utf8ByteSize.go] at h
        omega
  · intro h; subst h; rfl

theorem Index_singleton_none (c : Char) (s : List Char) (h : Index s [c] = none) :
    s.takeWhile (· ≠ c) = s := by
  induction s with
  | nil => rfl
  | cons a t ih =>
    unfold Index at h
    by_cases hac : a = c
    · subst hac; simp [List.isPrefixOf] at h
    · have hca : ¬ c = a := fun e => hac e.symm
      simp [List.isPrefixOf, hca] at h
      have ih2 := ih h
      simp only [List.takeWhile, ne_eq, hac, not_false_eq_true, decide_True]
      rw [ih2]

theorem Index_singleton_some (c : Char) (s : List Char) (m : Nat) (h : Index s [c] = some m) :
    s.take m = s.takeWhile (· ≠ c) := by
  induction s generalizing m with
  | nil => simp [Index, List.isPrefixOf] at h
  | cons a t ih =>
    unfold Index at h
    by_cases hac : a = c
    · subst hac; simp [List.isPrefixOf] at h; subst h; simp [List.takeWhile]
    · have hca : ¬ c = a := fun e => hac e.symm
      simp [List.isPrefixOf, hca] at h
      obtain ⟨k, hk, rfl⟩ := h
      simp [List.takeWhile, hac, ih k hk]

/-- The first piece of `strings.SplitN(timestamp, "-", 2)` is the year segment. -/
theorem SplitN_dash_two (timestamp : String) :
    ∃ rest, SplitN timestamp "-" 2 = yearSegment timestamp :: rest := by
  by_cases h0 : timestamp = ""
  · subst h0; exact ⟨[], by decide⟩
  · have hsz : timestamp.utf8ByteSize ≠ 0 := fun h => h0 ((utf8ByteSize_eq_zero_iff _).1 h)
    have hn : ¬ ((2 : Int) > (timestamp.utf8ByteSize : Int) + 1) := by omega
    have hsep : ¬ (("-" : String) = "") := by decide
    simp only [SplitN, genSplit, hn, hsep, if_false]
    have h1 : ((2 : Int) - 1).toNat = 1 := by decide
    simp only [show ¬ ((2:Int) = 0) by decide, show ¬ ((2:Int) < 0) by decide, if_false, h1]
    rw [if_neg hn, h1]
    cases hI : Index timestamp.data ['-'] with
    | none =>
      refine ⟨[], ?_⟩
      simp only [genSplitLoop, hI, yearSegment, Index_singleton_none _ _ hI, List.map]
    | some m =>
      refine ⟨[String.mk (timestamp.data.drop (m + 1))], ?_⟩
      simp only [genSplitLoop, hI, yearSegment, ← Index_singleton_some _ _ _ hI, List.map,
        Nat.add_zero, List.length_singleton]


theorem FormatInt_base (i : Int) : FormatInt i FORMATINT_BASE = toString i := by
  cases i with
  | ofNat n =>
    simp [FormatInt, FORMATINT_BASE, toString, instToStringInt, Int.repr, Nat.repr,
      List.asString]
  | negSucc n =>
    simp [FormatInt, FORMATINT_BASE, toString, instToStringInt, Int.repr, Nat.repr,
      List.asString, Int.negSucc_lt_zero]

theorem join_foldl_acc (l : List String) (acc : String) :
    List.foldl (fun r s => r ++ s) acc l = acc ++ String.join l := by
  induction l generalizing acc with
  | nil => simp [String.join]
  | cons a as ih =>
    simp only [String.join, List.foldl]
    rw [ih (acc ++ a), ih ("" ++ a)]
    simp [String.join, String.append_assoc]

theorem join_cons (a : String) (l : List String) :
    String.join (a :: l) = a ++ String.join l := by
  simp only [String.join, List.foldl]
  rw [join_foldl_acc l ("" ++ a)]
  simp [String.join]

/-! ## The loops -/

theorem dumpAllMessagesLoop_spec (ms : List Message) (hne : ms ≠ []) (i : Nat) (f : String) :
    dumpAllMessagesLoop ((i + ms.length : Nat) : Int) i ms f =
      f ++ (String.intercalate ", " (ms.map (fun m => toString m.ID)) ++ "\n\n") := by
  induction ms generalizing i f with
  | nil => exact absurd rfl hne
  | cons m rest ih =>
    cases rest with
    | nil =>
      simp [dumpAllMessagesLoop, dumpToFile, FormatInt_base, String.intercalate,
        String.intercalate.go]
    | cons m2 r =>
      have hcond : ¬ ((i : Int) + 1 = ((i + (m :: m2 :: r).length : Nat) : Int)) := by
        simp only [List.length_cons]; push_cast; omega
      have hlen : i + (m :: m2 :: r).length = (i + 1) + (m2 :: r).length := by
        simp only [List.length_cons]; omega
      rw [dumpAllMessagesLoop, if_neg hcond, hlen, ih (by simp) (i + 1)]
      simp only [List.map, intercalate_cons_cons, dumpToFile, FormatInt_base,
        String.append_assoc]

theorem dumpByChannelsLoop_eq (n : Int) (ms : List Message) (i : Nat) (f : String) :
    dumpByChannelsLoop n i ms f = dumpAllMessagesLoop n i ms f := by
  induction ms generalizing i f with
  | nil => rfl
  | cons m rest ih =>
    simp only [dumpByChannelsLoop, dumpAllMessagesLoop, ih]

theorem dumpAllMessagesLoop_append (n : Int) (ms : List Message) (i : Nat) (f : String) :
    ∃ t, dumpAllMessagesLoop n i ms f = f ++ t := by
  induction ms generalizing i f with
  | nil => exact ⟨"", by simp [dumpAllMessagesLoop]⟩
  | cons m rest ih =>
    simp only [dumpAllMessagesLoop, dumpToFile]
    split
    · obtain ⟨t, ht⟩ := ih (i + 1) (f ++ (FormatInt m.ID FORMATINT_BASE ++ "\n\n"))
      exact ⟨_, by rw [ht, String.append_assoc]⟩
    · obtain ⟨t, ht⟩ := ih (i + 1) (f ++ (FormatInt m.ID FORMATINT_BASE ++ ", "))
      exact ⟨_, by rw [ht, String.append_assoc]⟩

theorem dumpByYearLoop_spec (g : Globals) (ms : List Message) (dumped : Bool) (f : String) :
    dumpByYearLoop g ms dumped f =
      .ok (dumped || !(selectByYear g.flagValues.ByYear ms).isEmpty,
        f ++ ((if dumped ∨ selectByYear g.flagValues.ByYear ms = [] then ""
                else g.channelJson.ID ++ ":\n") ++
              String.join ((selectByYear g.flagValues.ByYear ms).map
                (fun m => toString m.ID ++ ", ")))) := by
  induction ms generalizing dumped f with
  | nil => simp [dumpByYearLoop, selectByYear, String.join]
  | cons m rest ih =>
    obtain ⟨tl, htl⟩ := SplitN_dash_two m.Timestamp
    rw [dumpByYearLoop, htl]
    by_cases hy : yearSegment m.Timestamp = g.flagValues.ByYear
    · have hsel : selectByYear g.flagValues.ByYear (m :: rest) =
          m :: selectByYear g.flagValues.ByYear rest := by
        simp [selectByYear, List.filter, hy]
      simp only [hy, ne_eq, not_true_eq_false, if_false, hsel, ih, List.map, join_cons]
      cases dumped <;>
        simp [dumpToFile, FormatInt_base, String.append_assoc]
    · have hsel : selectByYear g.flagValues.ByYear (m :: rest) =
          selectByYear g.flagValues.ByYear rest := by
        simp [selectByYear, List.filter, hy]
      simp only [hy, ne_eq, not_false_eq_true, if_true, hsel, ih]


theorem dumpByYear_eq_yearBlock (g : Globals) (dumpFile : String) :
    dumpByYear g dumpFile =
      .ok (dumpFile ++ yearBlock g.channelJson.ID
        ((selectByYear g.flagValues.ByYear g.messagesJson).map (fun m => m.ID))) := by
  rw [dumpByYear, dumpByYearLoop_spec]
  cases hsel : selectByYear g.flagValues.ByYear g.messagesJson with
  | nil => simp [yearBlock, String.join]
  | cons m rest =>
    simp [yearBlock, dumpToFile, String.append_assoc, Function.comp_def]

theorem dumpByChannels_of_notSuppressed (g : Globals) (messagesJsonLength : Int)
    (dumpFile : String) (h : notSuppressed g) :
    dumpByChannels g messagesJsonLength dumpFile =
      dumpAllMessages g messagesJsonLength dumpFile := by
  obtain ⟨h1, h2⟩ := h
  have e1 : (g.flagValues.Exclude && decide (g.channelJson.ID ∈ g.channelsList)) = false := by
    cases he : g.flagValues.Exclude <;> simp_all
  have e2 : (g.flagValues.Include && !decide (g.channelJson.ID ∈ g.channelsList)) = false := by
    cases hi : g.flagValues.Include <;> simp_all
  simp only [dumpByChannels, e1, e2, dumpByChannelsLoop_eq, dumpAllMessages]
  simp

/-! ## Layout of the unrestricted dump -/

/-- C1: for a non-empty message sequence, `dumpAllMessages` called with the
length of the sequence appends exactly the channel id, `":\n"`, the decimal
renderings of the ids in source order joined by `", "` (nothing after the last
one), and `"\n\n"`. -/
theorem dumpAllMessages_layout (g : Globals) (dumpFile : String)
    (hne : g.messagesJson ≠ []) :
    dumpAllMessages g (g.messagesJson.length : Int) dumpFile =
      dumpFile ++ (g.channelJson.ID ++ ":\n" ++
        String.intercalate ", " (g.messagesJson.map (fun m => toString m.ID)) ++ "\n\n") := by
  have h := dumpAllMessagesLoop_spec g.messagesJson hne 0
    (dumpToFile dumpFile (g.channelJson.ID ++ ":\n"))
  rw [Nat.zero_add] at h
  rw [dumpAllMessages, h]
  simp only [dumpToFile, String.append_assoc]

/-- Witness for C1: channel `c1` with ids 1, 2, 3 gives `"c1:\n1, 2, 3\n\n"`. -/
theorem dumpAllMessages_layout_witness :
    globalsC1.messagesJson ≠ [] ∧ dumpAllMessages globalsC1 3 "" = "c1:\n1, 2, 3\n\n" :=
  ⟨by decide, (dumpAllMessages_layout globalsC1 "" (by decide)).trans (by decide)⟩

/-! ## Selection by year -/

/-- C2 (the code departs from the claim): in the scenario of the specification
(year 2020, channel `A` with ids 10 and 11, channel `B` with id 20) the run
writes `", "` after the last matching id of each channel too, so the dump is
`"A:\n10, \n\nB:\n20, \n\n"` and not `"A:\n10\n\nB:\n20\n\n"`. -/
theorem dumpByYear_scenario_trailing_separator :
    dumpByYear globalsA "" = .ok "A:\n10, \n\n" ∧
    (∃ g, main scenarioWorld flagsYear2020 = .ok ⟨g, "A:\n10, \n\nB:\n20, \n\n"⟩) ∧
    ("A:\n10, \n\nB:\n20, \n\n" : String) ≠ "A:\n10\n\nB:\n20\n\n" := by
  refine ⟨by decide, ⟨_, by rfl⟩, by decide⟩

/-- C3: `dumpByYear` always returns, and what it appends is the rendering of
exactly the ids of the messages whose year segment (the timestamp up to its
first `-`, the whole timestamp without one) equals the configured year, each
once and in source order. -/
theorem dumpByYear_selected (g : Globals) (dumpFile : String) :
    dumpByYear g dumpFile =
      .ok (dumpFile ++ yearBlock g.channelJson.ID
        ((selectByYear g.flagValues.ByYear g.messagesJson).map (fun m => m.ID))) :=
  dumpByYear_eq_yearBlock g dumpFile

/-! ## Selection by channel set -/

/-- C4: `dumpByChannels` appends nothing when Exclude is set and the channel is
in the set, nothing when Include is set and the channel is not in the set, and
in every other case exactly what `dumpAllMessages` appends. -/
theorem dumpByChannels_cases (g : Globals) (messagesJsonLength : Int) (dumpFile : String) :
    (g.flagValues.Exclude = true ∧ g.channelJson.ID ∈ g.channelsList →
      dumpByChannels g messagesJsonLength dumpFile = dumpFile) ∧
    (g.flagValues.Include = true ∧ g.channelJson.ID ∉ g.channelsList →
      dumpByChannels g messagesJsonLength dumpFile = dumpFile) ∧
    (notSuppressed g →
      dumpByChannels g messagesJsonLength dumpFile =
        dumpAllMessages g messagesJsonLength dumpFile) := by
  refine ⟨?_, ?_, ?_⟩
  · rintro ⟨he, hin⟩
    simp [dumpByChannels, he, hin]
  · rintro ⟨hi, hnin⟩
    simp [dumpByChannels, hi, hnin]
  · exact dumpByChannels_of_notSuppressed g messagesJsonLength dumpFile

/-- Witness for C4: with the set `{"A"}`, channel `A` is dropped under Exclude,
channel `B` is dropped under Include, and channel `A` under Include is dumped as
`dumpAllMessages` dumps it. -/
theorem dumpByChannels_cases_witness :
    dumpByChannels (globalsChannels true false "A") 1 "" = "" ∧
    dumpByChannels (globalsChannels false true "B") 1 "" = "" ∧
    dumpByChannels (globalsChannels false true "A") 1 "" =
      dumpAllMessages (globalsChannels false true "A") 1 "" :=
  ⟨(dumpByChannels_cases (globalsChannels true false "A") 1 "").1 (by decide),
   (dumpByChannels_cases (globalsChannels false true "B") 1 "").2.1 (by decide),
   (dumpByChannels_cases (globalsChannels false true "A") 1 "").2.2 (by decide)⟩

/-! ## Policy dispatch -/

/-- C5: when a directory's records load and the message list is non-empty,
`readDirs` applies one policy: `dumpByYear` when ByYear is non-empty (whatever
the other flags are), else `dumpByChannels` when ByChannels is non-empty, else
`dumpAllMessages`. -/
theorem readDirs_precedence (w : World) (path : String) (st : State)
    (cFile mFile : String) (cj : ChannelJSON) (mj : MessagesJSON)
    (hc : w.ReadFile (path ++ CHANNEL_JSON_PATH) = .ok cFile)
    (hcu : w.UnmarshalChannel cFile st.g.channelJson = .ok cj)
    (hm : w.ReadFile (path ++ MESSAGES_JSON_PATH) = .ok mFile)
    (hmu : w.UnmarshalMessages mFile st.g.messagesJson = .ok mj)
    (hne : mj ≠ []) :
    (st.g.flagValues.ByYear ≠ "" →
      ∃ d, dumpByYear (loaded st.g cj mj) st.dumpFile = .ok d ∧
        readDirs w path st = .ok ⟨loaded st.g cj mj, d⟩) ∧
    (st.g.flagValues.ByYear = "" → st.g.flagValues.ByChannels ≠ "" →
      readDirs w path st =
        .ok ⟨loaded st.g cj mj, dumpByChannels (loaded st.g cj mj) mj.length st.dumpFile⟩) ∧
    (st.g.flagValues.ByYear = "" → st.g.flagValues.ByChannels = "" →
      readDirs w path st =
        .ok ⟨loaded st.g cj mj, dumpAllMessages (loaded st.g cj mj) mj.length st.dumpFile⟩) := by
  have hlen : ¬ ((mj.length : Int) = 0) := by
    cases mj with
    | nil => exact absurd rfl hne
    | cons a l => simp only [List.length_cons]; push_cast; omega
  refine ⟨?_, ?_, ?_⟩
  · intro hy
    refine ⟨_, dumpByYear_eq_yearBlock (loaded st.g cj mj) st.dumpFile, ?_⟩
    have hd := dumpByYear_eq_yearBlock (loaded st.g cj mj) st.dumpFile
    simp only [loaded] at hd
    simp only [readDirs, hc, hcu, hm, hmu, hlen, if_false, hy, ne_eq, not_false_eq_true,
      if_true, hd, loaded]
  · intro hy hch
    simp only [readDirs, hc, hcu, hm, hmu, hlen, if_false, hy, hch, ne_eq,
      not_true_eq_false, not_false_eq_true, if_true, loaded]
  · intro hy hch
    simp only [readDirs, hc, hcu, hm, hmu, hlen, if_false, hy, hch, ne_eq,
      not_true_eq_false, loaded]

/-- Witness for C5: with year 2020 and the channel list `A` with Exclude both
configured, directory `messages/chanA` is dumped by year. -/
theorem readDirs_precedence_witness :
    ∃ d, dumpByYear (loaded (initialState flagsYearAndChannels).g ⟨"A"⟩ messagesA) "" = .ok d ∧
      readDirs scenarioWorld "messages/chanA" (initialState flagsYearAndChannels) =
        .ok ⟨loaded (initialState flagsYearAndChannels).g ⟨"A"⟩ messagesA, d⟩ :=
  (readDirs_precedence scenarioWorld "messages/chanA" (initialState flagsYearAndChannels)
    "messages/chanA/channel.json" "messages/chanA/messages.json" ⟨"A"⟩ messagesA
    (by rfl) (by rfl) (by rfl) (by rfl) (by decide)).1 (by decide)

/-! ## Suppression -/

/-- C6: when no message matches the configured year `dumpByYear` appends nothing
at all; `dumpAllMessages`, and `dumpByChannels` for a channel the membership
test does not drop, append a text that begins with the header (channel id and
`":\n"`) for every message sequence, and exactly the header for the empty one. -/
theorem suppression_asymmetry (g : Globals) (messagesJsonLength : Int) (dumpFile : String) :
    ((∀ m ∈ g.messagesJson, yearSegment m.Timestamp ≠ g.flagValues.ByYear) →
      dumpByYear g dumpFile = .ok dumpFile) ∧
    (∃ t, dumpAllMessages g messagesJsonLength dumpFile =
      dumpFile ++ (g.channelJson.ID ++ ":\n" ++ t)) ∧
    (g.messagesJson = [] →
      dumpAllMessages g messagesJsonLength dumpFile = dumpFile ++ (g.channelJson.ID ++ ":\n")) ∧
    (notSuppressed g →
      ∃ t, dumpByChannels g messagesJsonLength dumpFile =
        dumpFile ++ (g.channelJson.ID ++ ":\n" ++ t)) ∧
    (notSuppressed g → g.messagesJson = [] →
      dumpByChannels g messagesJsonLength dumpFile = dumpFile ++ (g.channelJson.ID ++ ":\n")) := by
  have hall : ∃ t, dumpAllMessages g messagesJsonLength dumpFile =
      dumpFile ++ (g.channelJson.ID ++ ":\n" ++ t) := by
    obtain ⟨t, ht⟩ := dumpAllMessagesLoop_append messagesJsonLength g.messagesJson 0
      (dumpToFile dumpFile (g.channelJson.ID ++ ":\n"))
    exact ⟨t, by rw [dumpAllMessages, ht]; simp only [dumpToFile, String.append_assoc]⟩
  have hempty : g.messagesJson = [] →
      dumpAllMessages g messagesJsonLength dumpFile = dumpFile ++ (g.channelJson.ID ++ ":\n") := by
    intro h
    simp only [dumpAllMessages, h, dumpAllMessagesLoop, dumpToFile]
  refine ⟨?_, hall, hempty, ?_, ?_⟩
  · intro hno
    have hsel : selectByYear g.flagValues.ByYear g.messagesJson = [] := by
      simp only [selectByYear, List.filter_eq_nil_iff, decide_eq_true_eq]
      exact hno
    rw [dumpByYear_eq_yearBlock, hsel]
    simp [yearBlock]
  · intro hns
    rw [dumpByChannels_of_notSuppressed g messagesJsonLength dumpFile hns]
    exact hall
  · intro hns h
    rw [dumpByChannels_of_notSuppressed g messagesJsonLength dumpFile hns]
    exact hempty h

/-- Witness for C6: channel `A` under year 1999 has no match and nothing is
appended; with an empty message list the two other policies append the header
alone. -/
theorem suppression_asymmetry_witness :
    dumpByYear { globalsA with flagValues := { flagsAll with ByYear := "1999" } } "x" = .ok "x" ∧
    dumpAllMessages { globalsA with messagesJson := [] } 0 "x" = "x" ++ ("A" ++ ":\n") ∧
    dumpByChannels { globalsChannels false true "A" with messagesJson := [] } 0 "x" =
      "x" ++ ("A" ++ ":\n") :=
  ⟨(suppression_asymmetry
      { globalsA with flagValues := { flagsAll with ByYear := "1999" } } 0 "x").1 (by decide),
   (suppression_asymmetry { globalsA with messagesJson := [] } 0 "x").2.2.1 (by decide),
   (suppression_asymmetry { globalsChannels false true "A" with messagesJson := [] } 0 "x").2.2.2.2
      (by decide) (by decide)⟩

/-! ## Empty message list -/

/-- C7: under every configuration, a directory whose message list decodes to
zero elements leaves the dump as it was. -/
theorem readDirs_empty_messages (w : World) (path : String) (st : State)
    (cFile mFile : String) (cj : ChannelJSON)
    (hc : w.ReadFile (path ++ CHANNEL_JSON_PATH) = .ok cFile)
    (hcu : w.UnmarshalChannel cFile st.g.channelJson = .ok cj)
    (hm : w.ReadFile (path ++ MESSAGES_JSON_PATH) = .ok mFile)
    (hmu : w.UnmarshalMessages mFile st.g.messagesJson = .ok []) :
    readDirs w path st = .ok ⟨loaded st.g cj [], st.dumpFile⟩ := by
  simp only [readDirs, hc, hcu, hm, hmu, List.length_nil, Nat.cast_zero, if_true, loaded]

/-- Witness for C7: directory `messages/quiet` has an empty message list, and a
dump holding `"x"` still holds `"x"` after `readDirs`. -/
theorem readDirs_empty_messages_witness :
    readDirs quietWorld "messages/quiet" ⟨globalsA, "x"⟩ =
      .ok ⟨loaded globalsA ⟨"Q"⟩ [], "x"⟩ :=
  readDirs_empty_messages quietWorld "messages/quiet" ⟨globalsA, "x"⟩
    "messages/quiet/channel.json" "messages/quiet/messages.json" ⟨"Q"⟩
    (by rfl) (by rfl) (by rfl) (by rfl)


/-! ## The walk as a run over the visited directories -/

theorem readDirs_flagValues (w : World) (path : String) (st st2 : State)
    (h : readDirs w path st = .ok st2) : st2.g.flagValues = st.g.flagValues := by
  unfold readDirs at h
  split at h
  · cases h
  · split at h
    · cases h
    · split at h
      · cases h
      · split at h
        · cases h
        · dsimp only at h
          split at h
          · cases h; rfl
          · split at h
            · split at h
              · cases h; rfl
              · cases h
              · cases h
            · split at h
              · cases h; rfl
              · cases h; rfl

theorem readDirsSeq_flagValues (w : World) (l : List String) (st st2 : State)
    (h : readDirsSeq w l st = .ok st2) : st2.g.flagValues = st.g.flagValues := by
  induction l generalizing st with
  | nil => simp only [readDirsSeq, Run.ok.injEq] at h; rw [h]
  | cons p ps ih =>
    rw [readDirsSeq] at h
    cases hr : readDirs w p st with
    | ok s1 =>
      rw [hr] at h
      rw [ih s1 h, readDirs_flagValues w p st s1 hr]
    | fatal m d => rw [hr] at h; cases h
    | panic d => rw [hr] at h; cases h

theorem readDirsSeq_append (w : World) (l1 l2 : List String) (st : State) :
    readDirsSeq w (l1 ++ l2) st =
      match readDirsSeq w l1 st with
      | .ok s1 => readDirsSeq w l2 s1
      | .fatal msg d => .fatal msg d
      | .panic d => .panic d := by
  induction l1 generalizing st with
  | nil => rfl
  | cons p ps ih =>
    simp only [List.cons_append, readDirsSeq]
    cases hr : readDirs w p st with
    | ok s1 => exact ih s1
    | fatal m d => rfl
    | panic d => rfl

mutual
theorem walk_eq_readDirsSeq (w : World) (fp path name : String) :
    ∀ (e : Entry) (st : State), st.g.flagValues.Path = fp →
      walk w path name e st =
        withError (readDirsSeq w (visited fp w.Join path name e).1 st)
          (visited fp w.Join path name e).2
  | .file, st, _ => by
    simp [walk, walkFn, visited, readDirsSeq, withError]
  | .noStat e, st, _ => by
    simp [walk, walkFn, visited, readDirsSeq, withError]
  | .dirUnreadable e, st, _ => by
    simp [walk, walkFn, visited, readDirsSeq, withError]
  | .dir names, st, hfp => by
    subst hfp
    by_cases hn : name = st.g.flagValues.Path
    · simp only [walk, walkFn, visited, hn, ne_eq, not_true_eq_false, decide_False,
        Bool.false_and, if_false, List.nil_append, Bool.false_eq_true]
      exact walkNames_eq_readDirsSeq w _ path names st rfl
    · simp only [walk, walkFn, visited, hn, ne_eq, not_false_eq_true, decide_True,
        Bool.and_self, if_true, List.singleton_append, readDirsSeq]
      cases hr : readDirs w path st with
      | ok s1 =>
        have hs1 : s1.g.flagValues.Path = st.g.flagValues.Path := by
          rw [readDirs_flagValues w path st s1 hr]
        exact walkNames_eq_readDirsSeq w _ path names s1 hs1
      | fatal m d => rfl
      | panic d => rfl
theorem walkNames_eq_readDirsSeq (w : World) (fp path : String) :
    ∀ (names : List (String × Entry)) (st : State), st.g.flagValues.Path = fp →
      walkNames w path names st =
        withError (readDirsSeq w (visitedNames fp w.Join path names).1 st)
          (visitedNames fp w.Join path names).2
  | [], st, _ => by
    simp [walkNames, visitedNames, readDirsSeq, withError]
  | (name, e) :: rest, st, hfp => by
    have h1 := walk_eq_readDirsSeq w fp (w.Join path name) name e st hfp
    simp only [walkNames, visitedNames, h1]
    cases herr : (visited fp w.Join (w.Join path name) name e).2 with
    | some err =>
      simp only
      cases hr : readDirsSeq w (visited fp w.Join (w.Join path name) name e).1 st with
      | ok s1 => rfl
      | fatal m d => rfl
      | panic d => rfl
    | none =>
      simp only [readDirsSeq_append]
      cases hr : readDirsSeq w (visited fp w.Join (w.Join path name) name e).1 st with
      | ok s1 =>
        have hs1 : s1.g.flagValues.Path = fp := by
          rw [readDirsSeq_flagValues w _ st s1 hr]; exact hfp
        simp only [withError]
        exact walkNames_eq_readDirsSeq w fp path rest s1 hs1
      | fatal m d => rfl
      | panic d => rfl
end

/-- The walk of `pathWalk` is the run of `readDirs` over the visited directories. -/
theorem pathWalk_eq_readDirsSeq (w : World) (st : State) :
    pathWalk w st =
      withError
        (readDirsSeq w (visited st.g.flagValues.Path w.Join st.g.flagValues.Path
          (basename st.g.flagValues.Path) w.root).1 st)
        (visited st.g.flagValues.Path w.Join st.g.flagValues.Path
          (basename st.g.flagValues.Path) w.root).2 :=
  walk_eq_readDirsSeq w _ _ _ w.root st rfl

theorem readDirs_loadFails (w : World) (path : String) (st : State)
    (h : loadFails w path st) :
    ∃ e, ∃ msg ∈ loaderDiagnostics e, readDirs w path st = .fatal msg st.dumpFile := by
  cases hc : w.ReadFile (path ++ CHANNEL_JSON_PATH) with
  | error e =>
    exact ⟨e, "error reading channel file. ERROR: " ++ e ++ "\n",
      by simp [loaderDiagnostics], by simp only [readDirs, hc]⟩
  | ok cFile =>
    cases hcu : w.UnmarshalChannel cFile st.g.channelJson with
    | error e =>
      exact ⟨e, "error unmarshalling channel json file. ERROR: " ++ e ++ "\n",
        by simp [loaderDiagnostics], by simp only [readDirs, hc, hcu]⟩
    | ok cj =>
      cases hm : w.ReadFile (path ++ MESSAGES_JSON_PATH) with
      | error e =>
        exact ⟨e, "error reading messages file. ERROR: " ++ e ++ "\n",
          by simp [loaderDiagnostics], by simp only [readDirs, hc, hcu, hm]⟩
      | ok mFile =>
        cases hmu : w.UnmarshalMessages mFile st.g.messagesJson with
        | error e =>
          exact ⟨e, "error unmarshalling messages json file. ERROR: " ++ e ++ "\n",
            by simp [loaderDiagnostics], by simp only [readDirs, hc, hcu, hm, hmu]⟩
        | ok mj =>
          exfalso
          rcases h with ⟨e, he⟩ | ⟨c, e, hc2, he⟩ | ⟨e, he⟩ | ⟨m, e, hm2, he⟩
          · rw [hc] at he; cases he
          · rw [hc] at hc2; cases hc2; rw [hcu] at he; cases he
          · rw [hm] at he; cases he
          · rw [hm] at hm2; cases hm2; rw [hmu] at he; cases he

theorem fillChannelsList_flagValues (g : Globals) :
    (fillChannelsList g).flagValues = g.flagValues := by
  unfold fillChannelsList
  split <;> rfl

/-! ## Which directories are visited -/

/-- C8 (the code departs from the claim): the walk function compares the base
name of an entry with the whole root path. With the root path `data/messages`
the root itself is handed to `readDirs`, which ends the run because the root
has no `channel.json`; with the root path `messages`, the channel directory
`messages/messages` is never handed to `readDirs` and its id 5 is missing from
the dump. -/
theorem pathWalk_compares_base_name_with_root_path :
    main nestedRootWorld flagsNestedRoot =
      .fatal ("error reading channel file. ERROR: " ++
        "open data/messages/channel.json: no such file or directory\n") "" ∧
    (visited "data/messages" nestedRootWorld.Join "data/messages" (basename "data/messages")
      nestedRootWorld.root).1 = ["data/messages", "data/messages/chanA"] ∧
    (∃ g, main sameNameWorld flagsAll = .ok ⟨g, "A:\n1\n\n"⟩) ∧
    (visited "messages" sameNameWorld.Join "messages" (basename "messages")
      sameNameWorld.root).1 = ["messages/chanA"] := by
  refine ⟨by rfl, by rfl, ⟨_, by rfl⟩, by rfl⟩

/-! ## The dump of a whole run -/

/-- C9 (the code departs from the claim): in year mode the block written for a
channel is not of the form channel id, `":\n"`, comma-separated ids, `"\n\n"`.
For channel `X` with the ids 7 and 8, both of 2021, the run under year 2021
writes `"X:\n7, 8, \n\n"`, with a separator after the last id. -/
theorem run_by_year_block_has_trailing_separator :
    (∃ g, main yearWorld flagsYear2021 = .ok ⟨g, "X:\n7, 8, \n\n"⟩) ∧
    ("X:\n7, 8, \n\n" : String) ≠
      "X" ++ ":\n" ++ String.intercalate ", " [toString (7 : Int), toString (8 : Int)] ++ "\n\n" := by
  refine ⟨⟨_, by rfl⟩, by decide⟩

/-! ## Fatal errors of the record loader -/

/-- C10: when the directories visited before `p` are processed and the channel
or message resource of `p` is unreadable or does not decode, the run ends at
`p` with one of the loader diagnostics, and the dump is exactly what the
directories before `p` produced: nothing is written for `p` nor for the
directories after it. -/
theorem run_fatal_at_failing_directory (w : World) (flags : FlagValues)
    (pre post : List String) (p : String) (st1 : State)
    (hcreate : w.Create = .ok ())
    (hvis : (visited flags.Path w.Join flags.Path (basename flags.Path) w.root).1 =
      pre ++ p :: post)
    (hpre : readDirsSeq w pre (initialState flags) = .ok st1)
    (hfail : loadFails w p st1) :
    ∃ e, ∃ msg ∈ loaderDiagnostics e, main w flags = .fatal msg st1.dumpFile := by
  obtain ⟨e, msg, hmsg, hr⟩ := readDirs_loadFails w p st1 hfail
  refine ⟨e, msg, hmsg, ?_⟩
  have hflags : (initialState flags).g.flagValues = flags := by
    simp only [initialState, fillChannelsList_flagValues]
  have hw := pathWalk_eq_readDirsSeq w (initialState flags)
  rw [hflags, hvis, readDirsSeq_append, hpre] at hw
  simp only [readDirsSeq, hr, withError] at hw
  have hmain : main w flags =
      match pathWalk w (initialState flags) with
      | .ok (none, st) => .ok st
      | .ok (some err, st) => .fatal ("error walking path. ERROR: " ++ err ++ "\n") st.dumpFile
      | .fatal msg d => .fatal msg d
      | .panic d => .panic d := by
    simp only [main, hcreate, initialState]
  rw [hmain, hw]

/-- Witness for C10: of three channel directories the second has a message list
that does not decode; the run ends there and the dump holds the block of the
first directory only. -/
theorem run_fatal_at_failing_directory_witness :
    readDirsSeq brokenWorld ["messages/chanA"] (initialState flagsAll) =
      .ok ⟨loaded (initialState flagsAll).g ⟨"A"⟩ messagesA, "A:\n10, 11\n\n"⟩ ∧
    loadFails brokenWorld "messages/chanB"
      ⟨loaded (initialState flagsAll).g ⟨"A"⟩ messagesA, "A:\n10, 11\n\n"⟩ ∧
    ∃ e, ∃ msg ∈ loaderDiagnostics e,
      main brokenWorld flagsAll = .fatal msg "A:\n10, 11\n\n" :=
  ⟨by rfl,
   Or.inr (Or.inr (Or.inr ⟨"messages/chanB/messages.json", "invalid character",
      by rfl, by rfl⟩)),
  run_fatal_at_failing_directory brokenWorld flagsAll ["messages/chanA"] ["messages/chanC"]
    "messages/chanB" ⟨loaded (initialState flagsAll).g ⟨"A"⟩ messagesA, "A:\n10, 11\n\n"⟩
    (by rfl) (by rfl) (by rfl)
    (Or.inr (Or.inr (Or.inr ⟨"messages/chanB/messages.json", "invalid character",
      by rfl, by rfl⟩)))⟩


/-! ## Lemmas on splitting -/

theorem genSplitLoop_length (sep : List Char) (sepSave k : Nat) (s : List Char) :
    1 ≤ (genSplitLoop sep sepSave k s).length ∧
      (genSplitLoop sep sepSave k s).length ≤ k + 1 := by
  induction k generalizing s with
  | zero => simp [genSplitLoop]
  | succ k ih =>
    rw [genSplitLoop]
    cases hI : Index s sep with
    | none => simp
    | some m =>
      have := ih (s.drop (m + sep.length))
      simp only [List.length_cons]
      omega

theorem Index_singleton_cons (c a : Char) (t : List Char) :
    Index (a :: t) [c] = if a = c then some 0 else (Index t [c]).map (· + 1) := by
  rw [Index]
  by_cases hac : a = c
  · subst hac; simp [List.isPrefixOf]
  · have hca : ¬ c = a := fun e => hac e.symm
    simp [List.isPrefixOf, hac, hca]

theorem Index_singleton_nil (c : Char) : Index [] [c] = none := by
  simp [Index, List.isPrefixOf]

theorem genSplitLoop_singleton_cons (c a : Char) (t : List Char) (k : Nat) :
    genSplitLoop [c] 0 (k + 1) (a :: t) =
      if a = c then [] :: genSplitLoop [c] 0 k t
      else List.modifyHead (List.cons a) (genSplitLoop [c] 0 (k + 1) t) := by
  rw [genSplitLoop, Index_singleton_cons]
  by_cases hac : a = c
  · simp [hac]
  · simp only [hac, if_false]
    rw [genSplitLoop]
    cases hI : Index t [c] with
    | none => simp [List.modifyHead]
    | some m => simp [List.modifyHead]

theorem genSplitLoop_eq_splitOn (c : Char) (s : List Char) (k : Nat)
    (hk : s.count c ≤ k) : genSplitLoop [c] 0 k s = s.splitOn c := by
  induction s generalizing k with
  | nil =>
    cases k with
    | zero => simp [genSplitLoop]
    | succ k => simp [genSplitLoop, Index_singleton_nil]
  | cons a t ih =>
    rw [List.splitOn, List.splitOnP_cons]
    by_cases hac : a = c
    · subst hac
      simp only [List.count_cons_self] at hk
      cases k with
      | zero => omega
      | succ k =>
        rw [genSplitLoop_singleton_cons]
        simp only [if_true, beq_self_eq_true]
        rw [ih k (by omega)]
        rfl
    · have hcnt : (a :: t).count c = t.count c := by
        rw [List.count_cons]; simp [hac]
      rw [hcnt] at hk
      have hb : ¬ ((a == c) = true) := by simpa using hac
      simp only [hb, if_false]
      cases k with
      | zero =>
        have h0 := ih 0 hk
        rw [List.splitOn] at h0
        rw [← h0]
        simp [genSplitLoop, List.modifyHead]
      | succ k =>
        rw [genSplitLoop_singleton_cons]
        simp only [hac, if_false]
        have h1 := ih (k + 1) hk
        rw [List.splitOn] at h1
        rw [h1]
        simp

theorem countLoop_singleton_cons (c a : Char) (t : List Char) (fuel : Nat) :
    countLoop [c] (fuel + 1) (a :: t) =
      if a = c then 1 + countLoop [c] fuel t else countLoop [c] (fuel + 1) t := by
  rw [countLoop, Index_singleton_cons]
  by_cases hac : a = c
  · simp [hac]
  · simp only [hac, if_false]
    rw [countLoop]
    cases hI : Index t [c] with
    | none => simp
    | some m => simp

theorem countLoop_eq_count (c : Char) (s : List Char) (fuel : Nat)
    (hf : s.length + 1 ≤ fuel) : countLoop [c] fuel s = s.count c := by
  induction s generalizing fuel with
  | nil =>
    cases fuel with
    | zero => simp [countLoop]
    | succ f => simp [countLoop, Index_singleton_nil]
  | cons a t ih =>
    cases fuel with
    | zero => simp at hf
    | succ f =>
      simp only [List.length_cons] at hf
      rw [countLoop_singleton_cons, List.count_cons]
      by_cases hac : a = c
      · simp only [hac, if_true, beq_self_eq_true]
        rw [ih f (by omega)]; omega
      · have hb : ¬ ((a == c) = true) := by simpa using hac
        simp only [hac, hb, if_false]
        rw [ih (f + 1) (by omega)]; simp

theorem length_le_utf8ByteSize (s : String) : s.length ≤ s.utf8ByteSize := by
  cases s with
  | mk l =>
    simp only [String.length, String.utf8ByteSize]
    induction l with
    | nil => simp [String.utf8ByteSize.go]
    | cons a t ih =>
      have := a.utf8Size_pos
      simp only [String.utf8ByteSize.go, List.length_cons]
      omega

/-- The function `strings.Split` at `","` gives the pieces between the commas. -/
theorem Split_comma (s : String) : Split s "," = segments s := by
  have hsep : ¬ (("," : String) = "") := by decide
  have hn0 : ¬ ((-1 : Int) = 0) := by decide
  have hneg : (-1 : Int) < 0 := by decide
  have hcount : Count s.data (",").data = s.data.count ',' := by
    have hd : (",").data = [','] := rfl
    rw [hd, Count]
    simp only [List.cons_ne_nil, if_false, reduceCtorEq]
    exact countLoop_eq_count ',' s.data _ (le_refl _)
  have hle : s.data.count ',' ≤ s.utf8ByteSize :=
    le_trans (List.count_le_length ',' s.data) (length_le_utf8ByteSize s)
  have hclamp : ¬ (((s.data.count ',' : Nat) : Int) + 1 > (s.utf8ByteSize : Int) + 1) := by
    omega
  simp only [Split, genSplit, hsep, hn0, hneg, if_true, if_false, hcount, hclamp, segments]
  have hk : (((s.data.count ',' : Nat) : Int) + 1 - 1).toNat = s.data.count ',' := by
    omega
  rw [hk, genSplitLoop_eq_splitOn ',' s.data _ (le_refl _)]

theorem mem_foldl_mapInsert (l cl : List String) (x : String) :
    x ∈ l.foldl mapInsert cl ↔ x ∈ cl ∨ x ∈ l := by
  induction l generalizing cl with
  | nil => simp
  | cons e t ih =>
    rw [List.foldl, ih]
    by_cases he : e ∈ cl
    · simp only [mapInsert, he, if_true, List.mem_cons]
      constructor
      · rintro (h | h)
        · exact Or.inl h
        · exact Or.inr (Or.inr h)
      · rintro (h | h | h)
        · exact Or.inl h
        · exact Or.inl (h ▸ he)
        · exact Or.inr h
    · simp only [mapInsert, he, if_false, List.mem_append, List.mem_singleton, List.mem_cons]
      tauto

theorem fillChannelsList_channelsList (g : Globals) (h : g.channelsList = []) :
    (fillChannelsList g).channelsList =
      if g.flagValues.ByChannels ≠ "" then (segments g.flagValues.ByChannels).foldl mapInsert []
      else [] := by
  unfold fillChannelsList
  split
  · simp only [Split_comma, h]
  · exact h

theorem segments_ne_nil (s : String) : segments s ≠ [] := by
  intro h
  have h2 := congrArg List.length h
  simp only [segments, List.length_map, List.length_nil, List.length_eq_zero] at h2
  exact List.splitOnP_ne_nil _ _ h2

theorem mem_fillChannelsList (g : Globals) (h : g.channelsList = []) (s : String) :
    s ∈ (fillChannelsList g).channelsList ↔
      g.flagValues.ByChannels ≠ "" ∧ s ∈ segments g.flagValues.ByChannels := by
  rw [fillChannelsList_channelsList g h]
  by_cases hb : g.flagValues.ByChannels = ""
  · simp [hb]
  · simp [hb, mem_foldl_mapInsert]

theorem fillChannelsList_ne_nil_iff (g : Globals) (h : g.channelsList = []) :
    (fillChannelsList g).channelsList ≠ [] ↔ g.flagValues.ByChannels ≠ "" := by
  constructor
  · intro hne hb
    rw [fillChannelsList_channelsList g h] at hne
    simp [hb] at hne
  · intro hb hnil
    obtain ⟨x, hx⟩ := List.exists_mem_of_ne_nil _ (segments_ne_nil g.flagValues.ByChannels)
    have hmem := (mem_fillChannelsList g h x).2 ⟨hb, hx⟩
    rw [hnil] at hmem
    exact absurd hmem (List.not_mem_nil x)

/-! ## Retention across directories -/

/-- C11 (the code departs from the claim): `readDirs` decodes into the
package-level `channelJson` without resetting it. Directory `messages/chanB`,
whose `channel.json` has no `id`, gives the block `":\n5\n\n"` when it is the
first directory read, but in the run over `messages/chanA` (id `A`) and then
`messages/chanB` its block carries the id left by `chanA`: the dump is
`"A:\n1\n\nA:\n5\n\n"`. -/
theorem readDirs_keeps_channel_id_of_previous_directory :
    (∃ g, readDirs omittedIdWorld "messages/chanB" (initialState flagsAll) =
      .ok ⟨g, ":\n5\n\n"⟩) ∧
    (∃ g, main omittedIdWorld flagsAll = .ok ⟨g, "A:\n1\n\nA:\n5\n\n"⟩) ∧
    ("A:\n1\n\nA:\n5\n\n" : String) ≠ "A:\n1\n\n" ++ ":\n5\n\n" := by
  refine ⟨⟨_, by rfl⟩, ⟨_, by rfl⟩, by decide⟩

/-! ## Channel set and selection mode -/

/-- C12, as stated, fails: with a year and a channel list both configured the
channel set is non-empty after `fillChannelsList` while the mode `readDirs`
applies is by year. -/
theorem channelsList_nonempty_in_year_mode :
    ¬ ((initialState flagsYearAndChannels).g.channelsList ≠ [] ↔
      selectionMode (initialState flagsYearAndChannels).g.flagValues = .byChannels) := by
  decide

/-- C12, amended: after `fillChannelsList` on an empty set, the set is non-empty
exactly when ByChannels is non-empty; it is non-empty whenever the mode is by
channel set, and when ByYear is empty it is non-empty exactly when the mode is
by channel set. -/
theorem channelsList_nonempty_iff (g : Globals) (h : g.channelsList = []) :
    ((fillChannelsList g).channelsList ≠ [] ↔ g.flagValues.ByChannels ≠ "") ∧
    (selectionMode (fillChannelsList g).flagValues = .byChannels →
      (fillChannelsList g).channelsList ≠ []) ∧
    (g.flagValues.ByYear = "" →
      ((fillChannelsList g).channelsList ≠ [] ↔
        selectionMode (fillChannelsList g).flagValues = .byChannels)) := by
  have hiff := fillChannelsList_ne_nil_iff g h
  rw [fillChannelsList_flagValues]
  refine ⟨hiff, ?_, ?_⟩
  · intro hm
    rw [hiff]
    intro hb
    by_cases hy : g.flagValues.ByYear = "" <;> simp [selectionMode, hy, hb] at hm
  · intro hy
    rw [hiff]
    by_cases hb : g.flagValues.ByChannels = "" <;> simp [selectionMode, hy, hb]

/-- Witness for C12, amended: with the channel list `A` and no year the set is
non-empty and the mode is by channel set. -/
theorem channelsList_nonempty_iff_witness :
    (fillChannelsList ⟨⟨""⟩, [], { flagsAll with ByChannels := "A" }, []⟩).channelsList ≠ [] ↔
      selectionMode
        (fillChannelsList ⟨⟨""⟩, [], { flagsAll with ByChannels := "A" }, []⟩).flagValues =
        .byChannels :=
  (channelsList_nonempty_iff ⟨⟨""⟩, [], { flagsAll with ByChannels := "A" }, []⟩ rfl).2.2
    (by decide)

/-! ## The index into the split timestamp -/

/-- C13: `strings.SplitN(timestamp, "-", 2)` has one or two pieces for every
timestamp, so the index `timestampSplit[0]` is in range and `dumpByYear` returns
for every message sequence. -/
theorem timestampSplit_index_in_range :
    (∀ timestamp : String,
      (SplitN timestamp "-" 2).length = 1 ∨ (SplitN timestamp "-" 2).length = 2) ∧
    (∀ (g : Globals) (dumpFile : String), ∃ d, dumpByYear g dumpFile = .ok d) := by
  refine ⟨?_, fun g dumpFile => ⟨_, dumpByYear_eq_yearBlock g dumpFile⟩⟩
  intro timestamp
  have hsep : ¬ (("-" : String) = "") := by decide
  simp only [SplitN, genSplit, hsep, show ¬ ((2 : Int) = 0) by decide,
    show ¬ ((2 : Int) < 0) by decide, if_false, List.length_map]
  have hlen : ∀ (k : Nat), k ≤ 1 → ∀ l : List Char,
      (genSplitLoop ("-").data 0 k l).length = 1 ∨
        (genSplitLoop ("-").data 0 k l).length = 2 := by
    intro k hk l
    have hl := genSplitLoop_length ("-").data 0 k l
    omega
  refine hlen _ ?_ _
  split <;> omega

/-! ## Members of the channel set -/

/-- C14: starting from an empty set, after `fillChannelsList` a string is a
member exactly when ByChannels is non-empty and the string is one of the pieces
of ByChannels between its commas, compared as it stands; with an empty
ByChannels the set stays empty. -/
theorem channelsList_members (g : Globals) (h : g.channelsList = []) :
    (∀ s : String, s ∈ (fillChannelsList g).channelsList ↔
      g.flagValues.ByChannels ≠ "" ∧ s ∈ segments g.flagValues.ByChannels) ∧
    (g.flagValues.ByChannels = "" → (fillChannelsList g).channelsList = []) := by
  refine ⟨mem_fillChannelsList g h, ?_⟩
  intro hb
  rw [fillChannelsList_channelsList g h]
  simp [hb]

/-- Witness for C14: the list `"a,,b"` and the list `"a,"` make the empty id a
member; `" a"` is a member for the list `" a,b"` and `"a"` is not; the empty
list leaves the set empty. -/
theorem channelsList_members_witness :
    "" ∈ (fillChannelsList ⟨⟨""⟩, [], { flagsAll with ByChannels := "a,,b" }, []⟩).channelsList ∧
    "" ∈ (fillChannelsList ⟨⟨""⟩, [], { flagsAll with ByChannels := "a," }, []⟩).channelsList ∧
    " a" ∈ (fillChannelsList ⟨⟨""⟩, [], { flagsAll with ByChannels := " a,b" }, []⟩).channelsList ∧
    "a" ∉ (fillChannelsList ⟨⟨""⟩, [], { flagsAll with ByChannels := " a,b" }, []⟩).channelsList ∧
    (fillChannelsList ⟨⟨""⟩, [], flagsAll, []⟩).channelsList = [] :=
  ⟨((channelsList_members ⟨⟨""⟩, [], { flagsAll with ByChannels := "a,,b" }, []⟩ rfl).1 "").2
      (by decide),
   ((channelsList_members ⟨⟨""⟩, [], { flagsAll with ByChannels := "a," }, []⟩ rfl).1 "").2
      (by decide),
   ((channelsList_members ⟨⟨""⟩, [], { flagsAll with ByChannels := " a,b" }, []⟩ rfl).1 " a").2
      (by decide),
   fun hmem =>
    absurd
      (((channelsList_members ⟨⟨""⟩, [], { flagsAll with ByChannels := " a,b" }, []⟩ rfl).1
        "a").1 hmem)
      (by decide),
   (channelsList_members ⟨⟨""⟩, [], flagsAll, []⟩ rfl).2 (by decide)⟩

/-! ## Exclude and Include together -/

theorem dumpByChannels_both_switches (g : Globals) (messagesJsonLength : Int)
    (dumpFile : String) (he : g.flagValues.Exclude = true) (hi : g.flagValues.Include = true) :
    dumpByChannels g messagesJsonLength dumpFile = dumpFile := by
  by_cases hin : g.channelJson.ID ∈ g.channelsList
  · simp [dumpByChannels, he, hin]
  · simp [dumpByChannels, he, hi, hin]

theorem readDirs_both_switches (w : World) (path : String) (st : State)
    (hy : st.g.flagValues.ByYear = "") (hb : st.g.flagValues.ByChannels ≠ "")
    (he : st.g.flagValues.Exclude = true) (hi : st.g.flagValues.Include = true) :
    finalDump (readDirs w path st) = st.dumpFile := by
  cases hc : w.ReadFile (path ++ CHANNEL_JSON_PATH) with
  | error e => simp only [readDirs, hc, finalDump]
  | ok cFile =>
    cases hcu : w.UnmarshalChannel cFile st.g.channelJson with
    | error e => simp only [readDirs, hc, hcu, finalDump]
    | ok cj =>
      cases hm : w.ReadFile (path ++ MESSAGES_JSON_PATH) with
      | error e => simp only [readDirs, hc, hcu, hm, finalDump]
      | ok mFile =>
        cases hmu : w.UnmarshalMessages mFile st.g.messagesJson with
        | error e => simp only [readDirs, hc, hcu, hm, hmu, finalDump]
        | ok mj =>
          simp only [readDirs, hc, hcu, hm, hmu, hy, hb, ne_eq, not_true_eq_false,
            not_false_eq_true, if_true, if_false]
          split
          · rfl
          · simp only [finalDump]
            exact dumpByChannels_both_switches _ _ _ he hi

theorem readDirsSeq_both_switches (w : World) (l : List String) (st : State)
    (hy : st.g.flagValues.ByYear = "") (hb : st.g.flagValues.ByChannels ≠ "")
    (he : st.g.flagValues.Exclude = true) (hi : st.g.flagValues.Include = true) :
    finalDump (readDirsSeq w l st) = st.dumpFile := by
  induction l generalizing st with
  | nil => rfl
  | cons p ps ih =>
    have h1 := readDirs_both_switches w p st hy hb he hi
    rw [readDirsSeq]
    cases hr : readDirs w p st with
    | ok s1 =>
      have hf := readDirs_flagValues w p st s1 hr
      rw [hr] at h1
      simp only [finalDump] at h1
      simp only
      rw [ih s1 (by rw [hf]; exact hy) (by rw [hf]; exact hb) (by rw [hf]; exact he)
        (by rw [hf]; exact hi), h1]
    | fatal m d => rw [hr] at h1; exact h1
    | panic d => rw [hr] at h1; exact h1

theorem main_eq_pathWalk (w : World) (flags : FlagValues) (hcreate : w.Create = .ok ()) :
    main w flags =
      match pathWalk w (initialState flags) with
      | .ok (none, st) => .ok st
      | .ok (some err, st) => .fatal ("error walking path. ERROR: " ++ err ++ "\n") st.dumpFile
      | .fatal msg d => .fatal msg d
      | .panic d => .panic d := by
  simp only [main, hcreate, initialState]

/-- C15: with Exclude and Include both set `dumpByChannels` appends nothing,
whatever the channel id, the channel set and the messages are; so a run in
channel-set mode with both switches ends with an empty dump. -/
theorem both_switches_dump_nothing :
    (∀ (g : Globals) (messagesJsonLength : Int) (dumpFile : String),
      g.flagValues.Exclude = true → g.flagValues.Include = true →
        dumpByChannels g messagesJsonLength dumpFile = dumpFile) ∧
    (∀ (w : World) (flags : FlagValues),
      flags.ByYear = "" → flags.ByChannels ≠ "" →
      flags.Exclude = true → flags.Include = true →
        finalDump (main w flags) = "") := by
  refine ⟨dumpByChannels_both_switches, ?_⟩
  intro w flags hy hb he hi
  cases hc : w.Create with
  | error e => simp only [main, hc, finalDump]
  | ok u =>
    cases u
    have hflags : (initialState flags).g.flagValues = flags := by
      simp only [initialState, fillChannelsList_flagValues]
    have hseq := fun l => readDirsSeq_both_switches w l (initialState flags)
      (by rw [hflags]; exact hy) (by rw [hflags]; exact hb)
      (by rw [hflags]; exact he) (by rw [hflags]; exact hi)
    have hd0 : (initialState flags).dumpFile = "" := rfl
    rw [main_eq_pathWalk w flags hc, pathWalk_eq_readDirsSeq]
    generalize (visited (initialState flags).g.flagValues.Path w.Join
      (initialState flags).g.flagValues.Path
      (basename (initialState flags).g.flagValues.Path) w.root) = v
    have hv := hseq v.1
    rw [hd0] at hv
    cases hr : readDirsSeq w v.1 (initialState flags) with
    | ok s1 =>
      rw [hr] at hv
      simp only [finalDump] at hv
      cases herr : v.2 with
      | none => simp only [withError, finalDump, hv]
      | some err => simp only [withError, finalDump, hv]
    | fatal m d =>
      rw [hr] at hv
      simp only [finalDump] at hv
      simp only [withError, finalDump, hv]
    | panic d =>
      rw [hr] at hv
      simp only [finalDump] at hv
      simp only [withError, finalDump, hv]

/-- Witness for C15: channel `A` in the set `{"A"}` with both switches is not
dumped, and the run over the scenario tree with the list `A` and both switches
leaves the dump empty. -/
theorem both_switches_dump_nothing_witness :
    dumpByChannels (globalsChannels true true "A") 1 "" = "" ∧
    finalDump (main scenarioWorld flagsBothSwitches) = "" :=
  ⟨both_switches_dump_nothing.1 (globalsChannels true true "A") 1 "" (by decide) (by decide),
   both_switches_dump_nothing.2 scenarioWorld flagsBothSwitches
    (by decide) (by decide) (by decide) (by decide)⟩

/-! ## The AllMessages flag -/

theorem readDirs_withAllMessages (w : World) (path : String) (st : State) (b : Bool) :
    readDirs w path (withAllMessages b st) = (readDirs w path st).withAllMessages b := by
  cases hc : w.ReadFile (path ++ CHANNEL_JSON_PATH) with
  | error e => simp only [readDirs, hc, withAllMessages, Run.withAllMessages]
  | ok cFile =>
    cases hcu : w.UnmarshalChannel cFile st.g.channelJson with
    | error e => simp only [readDirs, hc, hcu, withAllMessages, Run.withAllMessages]
    | ok cj =>
      cases hm : w.ReadFile (path ++ MESSAGES_JSON_PATH) with
      | error e => simp only [readDirs, hc, hcu, hm, withAllMessages, Run.withAllMessages]
      | ok mFile =>
        cases hmu : w.UnmarshalMessages mFile st.g.messagesJson with
        | error e =>
          simp only [readDirs, hc, hcu, hm, hmu, withAllMessages, Run.withAllMessages]
        | ok mj =>
          simp only [readDirs, hc, hcu, hm, hmu, withAllMessages, dumpByYear_eq_yearBlock,
            dumpByChannels, dumpAllMessages]
          split
          · rfl
          · split
            · rfl
            · split
              · rfl
              · rfl

/-- C16: `readDirs` never reads `flagValues.AllMessages`. Setting the flag to any
value changes neither the outcome nor the dump; in particular with the flag off
and neither a year nor a channel list, a directory with a non-empty message
list has all its ids dumped. -/
theorem allMessages_flag_ignored (w : World) (path : String) (st : State) :
    (∀ b : Bool,
      readDirs w path (withAllMessages b st) = (readDirs w path st).withAllMessages b) ∧
    (∀ b : Bool,
      finalDump (readDirs w path (withAllMessages b st)) = finalDump (readDirs w path st)) ∧
    (∀ (cFile mFile : String) (cj : ChannelJSON) (mj : MessagesJSON),
      st.g.flagValues.AllMessages = false →
      st.g.flagValues.ByYear = "" → st.g.flagValues.ByChannels = "" →
      w.ReadFile (path ++ CHANNEL_JSON_PATH) = .ok cFile →
      w.UnmarshalChannel cFile st.g.channelJson = .ok cj →
      w.ReadFile (path ++ MESSAGES_JSON_PATH) = .ok mFile →
      w.UnmarshalMessages mFile st.g.messagesJson = .ok mj →
      mj ≠ [] →
        finalDump (readDirs w path st) =
          st.dumpFile ++ (cj.ID ++ ":\n" ++
            String.intercalate ", " (mj.map (fun m => toString m.ID)) ++ "\n\n")) := by
  refine ⟨readDirs_withAllMessages w path st, ?_, ?_⟩
  · intro b
    rw [readDirs_withAllMessages]
    cases readDirs w path st <;> rfl
  · intro cFile mFile cj mj _ hy hb hc hcu hm hmu hne
    have hlen : ¬ ((mj.length : Int) = 0) := by
      cases mj with
      | nil => exact absurd rfl hne
      | cons a l => simp only [List.length_cons]; push_cast; omega
    have hloop := dumpAllMessagesLoop_spec mj hne 0 (dumpToFile st.dumpFile (cj.ID ++ ":\n"))
    rw [Nat.zero_add] at hloop
    simp only [readDirs, hc, hcu, hm, hmu, hlen, if_false, hy, hb, ne_eq,
      not_true_eq_false, finalDump, dumpAllMessages, hloop]
    simp only [dumpToFile, String.append_assoc]

/-- Witness for C16: with `AllMessages` off and no year nor channel list,
directory `messages/chanA` of the scenario is dumped in full. -/
theorem allMessages_flag_ignored_witness :
    finalDump (readDirs scenarioWorld "messages/chanA" (initialState flagsNotAll)) =
      "" ++ ("A" ++ ":\n" ++
        String.intercalate ", " (messagesA.map (fun m => toString m.ID)) ++ "\n\n") :=
  (allMessages_flag_ignored scenarioWorld "messages/chanA" (initialState flagsNotAll)).2.2
    "messages/chanA/channel.json" "messages/chanA/messages.json" ⟨"A"⟩ messagesA
    (by decide) (by decide) (by decide) (by rfl) (by rfl) (by rfl) (by rfl) (by decide)

/-- The policy `readDirs` applies is the one `selectionMode` names. -/
theorem readDirs_selectionMode (w : World) (path : String) (st : State)
    (cFile mFile : String) (cj : ChannelJSON) (mj : MessagesJSON)
    (hc : w.ReadFile (path ++ CHANNEL_JSON_PATH) = .ok cFile)
    (hcu : w.UnmarshalChannel cFile st.g.channelJson = .ok cj)
    (hm : w.ReadFile (path ++ MESSAGES_JSON_PATH) = .ok mFile)
    (hmu : w.UnmarshalMessages mFile st.g.messagesJson = .ok mj)
    (hne : mj ≠ []) :
    finalDump (readDirs w path st) =
      match selectionMode st.g.flagValues with
      | .byYear => finalDump
          (match dumpByYear (loaded st.g cj mj) st.dumpFile with
            | .ok d => .ok ⟨loaded st.g cj mj, d⟩
            | .fatal msg d => .fatal msg d
            | .panic d => .panic d)
      | .byChannels => dumpByChannels (loaded st.g cj mj) mj.length st.dumpFile
      | .all => dumpAllMessages (loaded st.g cj mj) mj.length st.dumpFile := by
  have hlen : ¬ ((mj.length : Int) = 0) := by
    cases mj with
    | nil => exact absurd rfl hne
    | cons a l => simp only [List.length_cons]; push_cast; omega
  simp only [readDirs, hc, hcu, hm, hmu, hlen, if_false, selectionMode, loaded]
  by_cases hy : st.g.flagValues.ByYear = ""
  · by_cases hb : st.g.flagValues.ByChannels = ""
    · simp [hy, hb, finalDump]
    · simp [hy, hb, finalDump]
  · simp [hy]

end DDD
